import Mathlib

/-!
Verification of the link-hook registration subsystem of chainer
(src/chainer/link_hook.py).

The global hook registry is a thread-local dict mapping a hook name to a
hook instance; `LinkHook.__enter__` registers the hook there and
`LinkHook.__exit__` unregisters it.  We embed the registry as an
association list ordered by insertion (Python dicts preserve insertion
order), hooks as records carrying a name, an instance identifier, and two
flags modelling overridden `added` / `deleted` callbacks that raise, and
the two scope operations as pure functions returning the outcome
(normal return or raised error), the final registry, and a trace of
callback invocations.  Each trace entry pairs the invoked callback with
the registry state at the moment the callback runs, which lets us state
claims about what a callback can observe mid-operation.
-/

/-- A link hook: `name` identifies it in registries; `id` distinguishes
instances; the two flags model subclasses whose `added` or `deleted`
callback raises an error. -/
structure LinkHook where
  name : String
  id : Nat
  addedRaises : Bool := false
  deletedRaises : Bool := false
  deriving DecidableEq

/-- Observable callback invocations.  The `Option Nat` argument is the
link passed to the callback: `none` is the no-node sentinel used for
global registrations. -/
inductive Event where
  | added : Nat → Option Nat → Event
  | deleted : Nat → Option Nat → Event
  | pre : Nat → Event
  | post : Nat → Event
  | call : Event
  deriving DecidableEq

/-- Errors surfaced by the registration subsystem: the KeyError raised on
a duplicate or missing name, an error raised by a hook callback, and an
error raised by the body of a with-region. -/
inductive HookError where
  | keyError : String → HookError
  | callbackError : HookError
  | bodyError : HookError
  deriving DecidableEq

/-- The global registry: insertion-ordered mapping from hook name to
hook, as a Python dict. -/
abbrev Registry := List (String × LinkHook)

/-- Trace of callback invocations, each paired with the registry state at
the moment the callback runs. -/
abbrev Trace := List (Event × Registry)

/-- Dict lookup: first (and, for registries built by these operations,
only) entry whose key equals the name. -/
def lookupHook : Registry → String → Option LinkHook
  | [], _ => none
  | (m, g) :: rest, n => if m = n then some g else lookupHook rest n

/-- Membership test, Python `name in link_hooks`. -/
def containsName (reg : Registry) (n : String) : Bool :=
  (lookupHook reg n).isSome

/-- Dict insertion of a fresh key: appended at the end, preserving
insertion order. -/
def insertHook (reg : Registry) (n : String) (h : LinkHook) : Registry :=
  reg ++ [(n, h)]

/-- Dict deletion, Python `del link_hooks[name]`: removes the first entry
with that key. -/
def removeName : Registry → String → Registry
  | [], _ => []
  | (m, g) :: rest, n => if m = n then rest else (m, g) :: removeName rest n

/-- Embedding of `LinkHook.__enter__`: if the name is already present it
raises KeyError without touching the registry; otherwise it stores the
hook, invokes `added(None)` (which may itself raise), and returns the
hook. -/
def LinkHook.enter (h : LinkHook) (reg : Registry) :
    Except HookError LinkHook × Registry × Trace :=
  if containsName reg h.name then
    (Except.error (HookError.keyError h.name), reg, [])
  else
    let reg1 := insertHook reg h.name h
    let tr : Trace := [(Event.added h.id none, reg1)]
    if h.addedRaises then (Except.error HookError.callbackError, reg1, tr)
    else (Except.ok h, reg1, tr)

/-- Embedding of `LinkHook.__exit__`: looks up the hook currently stored
under `self.name` (raising KeyError if absent), invokes its
`deleted(None)` callback, then deletes the entry.  The deleted callback
runs while the registry still holds the entry. -/
def LinkHook.exit (h : LinkHook) (reg : Registry) :
    Except HookError Unit × Registry × Trace :=
  match lookupHook reg h.name with
  | none => (Except.error (HookError.keyError h.name), reg, [])
  | some g =>
    let tr : Trace := [(Event.deleted g.id none, reg)]
    if g.deletedRaises then (Except.error HookError.callbackError, reg, tr)
    else (Except.ok (), removeName reg h.name, tr)

/-- Python with-statement semantics for a scoped hook context whose body
does not touch the registry: enter, run the body (which completes
normally when `bodyOk` and raises otherwise), and call exit whenever the
enter succeeded, regardless of how the body finished. -/
def withScope (h : LinkHook) (bodyOk : Bool) (reg : Registry) :
    Except HookError Unit × Registry × Trace :=
  match h.enter reg with
  | (Except.error e, reg1, tr1) => (Except.error e, reg1, tr1)
  | (Except.ok _, reg1, tr1) =>
    match h.exit reg1 with
    | (Except.error e2, reg2, tr2) => (Except.error e2, reg2, tr1 ++ tr2)
    | (Except.ok _, reg2, tr2) =>
      ((if bodyOk then Except.ok () else Except.error HookError.bodyError),
        reg2, tr1 ++ tr2)

/-- Recognises a `deleted` invocation of the hook with identifier `i`. -/
def isDeletedOf (i : Nat) : Event → Bool
  | Event.deleted j _ => j == i
  | _ => false

/-- Number of `deleted` invocations of hook `i` recorded in a trace. -/
def deletedCount (i : Nat) (tr : Trace) : Nat :=
  (tr.filter (fun p => isDeletedOf i p.1)).length

/-- Hook instance an event was dispatched to, if any. -/
def eventHookId : Event → Option Nat
  | Event.added i _ => some i
  | Event.deleted i _ => some i
  | Event.pre i => some i
  | Event.post i => some i
  | Event.call => none

/-- Modelled from the spec: the InvocationDispatcher (section 4.3 of the
spec; the dispatching code, the call path of Link, is not under src/).
Per invocation it runs the pre-invoke callbacks of the global snapshot
then of the local snapshot, executes the wrapped computation, then runs
the post-invoke callbacks in the identical order. -/
def dispatch (globalHooks localHooks : List LinkHook) : List Event :=
  (globalHooks ++ localHooks).map (fun h => Event.pre h.id)
    ++ [Event.call]
    ++ (globalHooks ++ localHooks).map (fun h => Event.post h.id)

/-- A Python value as returned by the default callbacks: they return
None. -/
inductive PyValue where
  | none : PyValue
  | int : Int → PyValue
  deriving DecidableEq

/-- The callback record handed to forward_preprocess and
forward_postprocess: link, forward method name, positional and keyword
arguments, and (post phase only) the output. -/
structure ForwardArgs where
  link : Nat
  forward_method : String
  args : List PyValue
  kwargs : List (String × PyValue)
  out : Option PyValue
  deriving DecidableEq

/-- The mutable world a callback could act on: the registry, the hook
itself, and the call record. -/
structure CallbackState where
  registry : Registry
  hook : LinkHook
  record : ForwardArgs
  deriving DecidableEq

/-- Default body of `LinkHook.added`: `pass` — returns None and changes
nothing. -/
def LinkHook.added (_self : LinkHook) (_link : Option Nat)
    (s : CallbackState) : PyValue × CallbackState :=
  (PyValue.none, s)

/-- Default body of `LinkHook.deleted`: `pass` — returns None and changes
nothing. -/
def LinkHook.deleted (_self : LinkHook) (_link : Option Nat)
    (s : CallbackState) : PyValue × CallbackState :=
  (PyValue.none, s)

/-- Default body of `LinkHook.forward_preprocess`: `pass` — returns None
and changes nothing. -/
def LinkHook.forward_preprocess (_self : LinkHook) (_args : ForwardArgs)
    (s : CallbackState) : PyValue × CallbackState :=
  (PyValue.none, s)

/-- Default body of `LinkHook.forward_postprocess`: `pass` — returns None
and changes nothing. -/
def LinkHook.forward_postprocess (_self : LinkHook) (_args : ForwardArgs)
    (s : CallbackState) : PyValue × CallbackState :=
  (PyValue.none, s)

/-- Concrete hooks used by witnesses and counterexamples. -/
def hookA : LinkHook := { name := "A", id := 0 }

def hookB : LinkHook := { name := "B", id := 1 }

def hookBad : LinkHook := { name := "B", id := 7, addedRaises := true }

def hookStored : LinkHook := { name := "N", id := 3 }

def hookSelf : LinkHook := { name := "N", id := 4 }

theorem lookupHook_eq_none (reg : Registry) (n : String)
    (h : containsName reg n = false) : lookupHook reg n = none := by
  unfold containsName at h
  cases hl : lookupHook reg n with
  | none => rfl
  | some g => rw [hl] at h; simp at h

theorem lookupHook_append (reg1 reg2 : Registry) (n : String) :
    lookupHook (reg1 ++ reg2) n =
      match lookupHook reg1 n with
      | some g => some g
      | none => lookupHook reg2 n := by
  induction reg1 with
  | nil => simp [lookupHook]
  | cons p rest ih =>
    obtain ⟨m, g⟩ := p
    by_cases hm : m = n
    · simp [lookupHook, hm]
    · simp [lookupHook, hm, ih]

theorem removeName_append_left (reg1 reg2 : Registry) (n : String)
    (h : lookupHook reg1 n = none) :
    removeName (reg1 ++ reg2) n = reg1 ++ removeName reg2 n := by
  induction reg1 with
  | nil => simp
  | cons p rest ih =>
    obtain ⟨m, g⟩ := p
    by_cases hm : m = n
    · simp [lookupHook, hm] at h
    · simp [lookupHook, hm] at h
      simp [removeName, hm, ih h]

/-- C1: entering a scoped context for a hook whose name is already in the
global registry raises the duplicate-name KeyError at entry, leaves the
registry (and hence the previously registered hook) unchanged, does not
store the hook, and invokes no callback. -/
theorem enter_duplicate_rejected (h : LinkHook) (reg : Registry)
    (hdup : containsName reg h.name = true) :
    h.enter reg = (Except.error (HookError.keyError h.name), reg, []) := by
  simp [LinkHook.enter, hdup]

theorem enter_duplicate_rejected_witness :
    hookB.enter [("B", hookBad)] =
      (Except.error (HookError.keyError "B"), [("B", hookBad)], []) :=
  enter_duplicate_rejected hookB [("B", hookBad)] (by decide)

/-- C3: entering a scoped context for a hook whose name is fresh returns
the very hook instance, stores it in the registry under its name, and
invokes its added callback with the no-node sentinel. -/
theorem enter_fresh_registers (h : LinkHook) (reg : Registry)
    (hfresh : containsName reg h.name = false) (ha : h.addedRaises = false) :
    (h.enter reg).1 = Except.ok h ∧
    lookupHook (h.enter reg).2.1 h.name = some h ∧
    (h.enter reg).2.2 = [(Event.added h.id none, insertHook reg h.name h)] := by
  have hl := lookupHook_eq_none reg h.name hfresh
  refine ⟨?_, ?_, ?_⟩
  · simp [LinkHook.enter, hfresh, ha]
  · simp [LinkHook.enter, hfresh, ha, insertHook, lookupHook_append, hl, lookupHook]
  · simp [LinkHook.enter, hfresh, ha]

theorem enter_fresh_registers_witness :
    (hookA.enter []).1 = Except.ok hookA ∧
    lookupHook (hookA.enter []).2.1 hookA.name = some hookA ∧
    (hookA.enter []).2.2 =
      [(Event.added hookA.id none, insertHook [] hookA.name hookA)] :=
  enter_fresh_registers hookA [] (by decide) (by decide)

/-- C4 counterexample: registration is not atomic.  For a hook whose
added callback raises, entering on the empty registry raises, yet
afterwards the registry does contain an entry for the hook name,
contradicting the claim that a failed registration leaves no entry. -/
theorem enter_atomicity_counterexample :
    (hookBad.enter []).1 = Except.error HookError.callbackError ∧
    ¬ containsName (hookBad.enter []).2.1 hookBad.name = false :=
  ⟨rfl, by decide⟩

/-- C4 amended: if entry raises the duplicate-name KeyError the registry
is left unchanged, but when the added callback raises the hook remains
stored in the registry under its name: registration is atomic only with
respect to the duplicate check, not with respect to callback errors. -/
theorem enter_atomicity_amended (h : LinkHook) (reg : Registry) :
    (containsName reg h.name = true →
      h.enter reg = (Except.error (HookError.keyError h.name), reg, [])) ∧
    (containsName reg h.name = false → h.addedRaises = true →
      (h.enter reg).1 = Except.error HookError.callbackError ∧
      lookupHook (h.enter reg).2.1 h.name = some h) := by
  constructor
  · intro hdup
    simp [LinkHook.enter, hdup]
  · intro hfresh ha
    have hl := lookupHook_eq_none reg h.name hfresh
    constructor
    · simp [LinkHook.enter, hfresh, ha]
    · simp [LinkHook.enter, hfresh, ha, insertHook, lookupHook_append, hl, lookupHook]

theorem enter_atomicity_amended_witness :
    (hookB.enter [("B", hookA)] =
      (Except.error (HookError.keyError "B"), [("B", hookA)], [])) ∧
    ((hookBad.enter []).1 = Except.error HookError.callbackError ∧
      lookupHook (hookBad.enter []).2.1 hookBad.name = some hookBad) :=
  ⟨(enter_atomicity_amended hookB [("B", hookA)]).1 (by decide),
   (enter_atomicity_amended hookBad []).2 (by decide) (by decide)⟩

/-- C2: exiting a scoped context (with-statement semantics), whether the
body completed normally or raised, removes the entry for the hook name
from the global registry, so the name is absent immediately after exit,
and the deleted callback was invoked exactly once. -/
theorem scoped_exit_cleanup (h : LinkHook) (bodyOk : Bool) (reg : Registry)
    (hfresh : containsName reg h.name = false)
    (ha : h.addedRaises = false) (hd : h.deletedRaises = false) :
    containsName (withScope h bodyOk reg).2.1 h.name = false ∧
    deletedCount h.id (withScope h bodyOk reg).2.2 = 1 := by
  have hl := lookupHook_eq_none reg h.name hfresh
  have henter : h.enter reg = (Except.ok h, insertHook reg h.name h,
      [(Event.added h.id none, insertHook reg h.name h)]) := by
    simp [LinkHook.enter, hfresh, ha]
  have hlook1 : lookupHook (insertHook reg h.name h) h.name = some h := by
    simp [insertHook, lookupHook_append, hl, lookupHook]
  have hrem : removeName (insertHook reg h.name h) h.name = reg := by
    rw [insertHook, removeName_append_left reg _ _ hl]
    simp [removeName]
  have hexit : h.exit (insertHook reg h.name h) =
      (Except.ok (), reg,
       [(Event.deleted h.id none, insertHook reg h.name h)]) := by
    simp [LinkHook.exit, hlook1, hd, hrem]
  have hws : withScope h bodyOk reg =
      ((if bodyOk then Except.ok () else Except.error HookError.bodyError),
        reg,
        [(Event.added h.id none, insertHook reg h.name h),
         (Event.deleted h.id none, insertHook reg h.name h)]) := by
    simp only [withScope, henter, hexit]
    rfl
  rw [hws]
  refine ⟨hfresh, ?_⟩
  simp [deletedCount, isDeletedOf, List.filter]

theorem scoped_exit_cleanup_witness :
    containsName (withScope hookA false []).2.1 hookA.name = false ∧
    deletedCount hookA.id (withScope hookA false []).2.2 = 1 :=
  scoped_exit_cleanup hookA false [] (by decide) (by decide) (by decide)

/-- C5: unregistering a name present in the registry invokes the stored
hook's deleted callback with the no-node sentinel while the registry
still contains the entry (the trace records the pre-removal registry as
the state seen by the callback), and only then removes the entry. -/
theorem deleted_called_before_removal (h g : LinkHook) (reg : Registry)
    (hs : lookupHook reg h.name = some g) (hd : g.deletedRaises = false) :
    (h.exit reg).2.2 = [(Event.deleted g.id none, reg)] ∧
    containsName reg h.name = true ∧
    (h.exit reg).2.1 = removeName reg h.name := by
  refine ⟨?_, ?_, ?_⟩ <;> simp [LinkHook.exit, hs, hd, containsName]

theorem deleted_called_before_removal_witness :
    (hookStored.exit [("N", hookStored)]).2.2 =
      [(Event.deleted hookStored.id none, [("N", hookStored)])] ∧
    containsName [("N", hookStored)] hookStored.name = true ∧
    (hookStored.exit [("N", hookStored)]).2.1 =
      removeName [("N", hookStored)] hookStored.name :=
  deleted_called_before_removal hookStored hookStored [("N", hookStored)]
    (by decide) (by decide)

/-- C9: if at exit time the registry has no entry under the hook name,
exit raises KeyError, leaves the registry unchanged, and invokes no
deleted callback. -/
theorem exit_missing_raises (h : LinkHook) (reg : Registry)
    (habs : lookupHook reg h.name = none) :
    h.exit reg = (Except.error (HookError.keyError h.name), reg, []) := by
  simp [LinkHook.exit, habs]

theorem exit_missing_raises_witness :
    hookA.exit [] = (Except.error (HookError.keyError "A"), [], []) :=
  exit_missing_raises hookA [] (by decide)

/-- C10: exit dispatches the deleted callback to whichever hook instance
is stored in the registry under the exiting hook name — not necessarily
to the exiting instance — removes that stored entry, and when the stored
instance differs, the exiting instance receives no callback at all. -/
theorem exit_dispatches_to_stored_hook (h g : LinkHook) (reg : Registry)
    (hs : lookupHook reg h.name = some g) (hd : g.deletedRaises = false) :
    h.exit reg =
      (Except.ok (), removeName reg h.name, [(Event.deleted g.id none, reg)]) ∧
    (g.id ≠ h.id →
      (h.exit reg).2.2.filter (fun p => eventHookId p.1 == some h.id) = []) := by
  have hx : h.exit reg =
      (Except.ok (), removeName reg h.name,
        [(Event.deleted g.id none, reg)]) := by
    simp [LinkHook.exit, hs, hd]
  refine ⟨hx, ?_⟩
  intro hne
  have hbe : (g.id == h.id) = false := by simp [hne]
  rw [hx]
  simp [eventHookId, List.filter, hbe]

theorem exit_dispatches_to_stored_hook_witness :
    (hookSelf.exit [("N", hookStored)] =
      (Except.ok (), removeName [("N", hookStored)] hookSelf.name,
        [(Event.deleted hookStored.id none, [("N", hookStored)])])) ∧
    ((hookSelf.exit [("N", hookStored)]).2.2.filter
      (fun p => eventHookId p.1 == some hookSelf.id) = []) :=
  ⟨(exit_dispatches_to_stored_hook hookSelf hookStored [("N", hookStored)]
      (by decide) (by decide)).1,
   (exit_dispatches_to_stored_hook hookSelf hookStored [("N", hookStored)]
      (by decide) (by decide)).2 (by decide)⟩

/-- C6: with two hooks of distinct names registered by nested scoped
contexts, exiting either context removes only its own name and leaves the
other hook's entry intact, whichever exits first. -/
theorem nested_exit_frame (h1 h2 : LinkHook) (reg : Registry)
    (hne : h1.name ≠ h2.name)
    (f1 : containsName reg h1.name = false)
    (f2 : containsName reg h2.name = false)
    (a1 : h1.addedRaises = false) (a2 : h2.addedRaises = false)
    (d1 : h1.deletedRaises = false) (d2 : h2.deletedRaises = false) :
    (lookupHook ((h1.exit ((h2.enter ((h1.enter reg).2.1)).2.1)).2.1) h2.name
        = some h2 ∧
      containsName ((h1.exit ((h2.enter ((h1.enter reg).2.1)).2.1)).2.1) h1.name
        = false) ∧
    (lookupHook ((h2.exit ((h2.enter ((h1.enter reg).2.1)).2.1)).2.1) h1.name
        = some h1 ∧
      containsName ((h2.exit ((h2.enter ((h1.enter reg).2.1)).2.1)).2.1) h2.name
        = false) := by
  have hl1 := lookupHook_eq_none reg h1.name f1
  have hl2 := lookupHook_eq_none reg h2.name f2
  have hreg1 : (h1.enter reg).2.1 = reg ++ [(h1.name, h1)] := by
    simp [LinkHook.enter, f1, a1, insertHook]
  have hlr1 : lookupHook (reg ++ [(h1.name, h1)]) h2.name = none := by
    simp [lookupHook_append, hl2, lookupHook, hne]
  have hc1 : containsName (reg ++ [(h1.name, h1)]) h2.name = false := by
    simp [containsName, hlr1]
  have hreg2 : (h2.enter (reg ++ [(h1.name, h1)])).2.1 =
      reg ++ [(h1.name, h1), (h2.name, h2)] := by
    simp [LinkHook.enter, hc1, a2, insertHook]
  have hlook_n1 : lookupHook (reg ++ [(h1.name, h1), (h2.name, h2)])
      h1.name = some h1 := by
    simp [lookupHook_append, hl1, lookupHook]
  have hlook_n2 : lookupHook (reg ++ [(h1.name, h1), (h2.name, h2)])
      h2.name = some h2 := by
    simp [lookupHook_append, hl2, lookupHook, hne]
  have hrm1 : removeName (reg ++ [(h1.name, h1), (h2.name, h2)])
      h1.name = reg ++ [(h2.name, h2)] := by
    rw [removeName_append_left reg _ _ hl1]
    simp [removeName]
  have hrm2 : removeName (reg ++ [(h1.name, h1), (h2.name, h2)])
      h2.name = reg ++ [(h1.name, h1)] := by
    rw [removeName_append_left reg _ _ hl2]
    simp [removeName, hne]
  have hx1 : (h1.exit (reg ++ [(h1.name, h1), (h2.name, h2)])).2.1 =
      reg ++ [(h2.name, h2)] := by
    simp [LinkHook.exit, hlook_n1, d1, hrm1]
  have hx2 : (h2.exit (reg ++ [(h1.name, h1), (h2.name, h2)])).2.1 =
      reg ++ [(h1.name, h1)] := by
    simp [LinkHook.exit, hlook_n2, d2, hrm2]
  rw [hreg1, hreg2, hx1, hx2]
  refine ⟨⟨?_, ?_⟩, ?_, ?_⟩
  · simp [lookupHook_append, hl2, lookupHook]
  · simp [containsName, lookupHook_append, hl1, lookupHook, Ne.symm hne]
  · simp [lookupHook_append, hl1, lookupHook]
  · simp [containsName, lookupHook_append, hl2, lookupHook, hne]

theorem nested_exit_frame_witness :
    (lookupHook ((hookA.exit ((hookB.enter ((hookA.enter []).2.1)).2.1)).2.1)
        hookB.name = some hookB ∧
      containsName ((hookA.exit ((hookB.enter ((hookA.enter []).2.1)).2.1)).2.1)
        hookA.name = false) ∧
    (lookupHook ((hookB.exit ((hookB.enter ((hookA.enter []).2.1)).2.1)).2.1)
        hookA.name = some hookA ∧
      containsName ((hookB.exit ((hookB.enter ((hookA.enter []).2.1)).2.1)).2.1)
        hookB.name = false) :=
  nested_exit_frame hookA hookB [] (by decide) (by decide) (by decide)
    (by decide) (by decide) (by decide) (by decide)

/-- C7: for global hooks registered in the order Ga, Gb and local hooks
registered in the order La, Lb on the invoked node, one invocation runs
the pre-invoke callbacks exactly in the order Ga, Gb, La, Lb and the
post-invoke callbacks in that identical order. -/
theorem dispatch_ordering (Ga Gb La Lb : LinkHook) :
    dispatch [Ga, Gb] [La, Lb] =
      [Event.pre Ga.id, Event.pre Gb.id, Event.pre La.id, Event.pre Lb.id,
       Event.call,
       Event.post Ga.id, Event.post Gb.id, Event.post La.id, Event.post Lb.id] := by
  simp [dispatch]

/-- C8: the default implementations of the four hook operations — added,
deleted, forward_preprocess, forward_postprocess — each return None and
leave the registry, the hook and the call record unchanged. -/
theorem default_callbacks_noop (h : LinkHook) (link : Option Nat)
    (a : ForwardArgs) (s : CallbackState) :
    h.added link s = (PyValue.none, s) ∧
    h.deleted link s = (PyValue.none, s) ∧
    h.forward_preprocess a s = (PyValue.none, s) ∧
    h.forward_postprocess a s = (PyValue.none, s) :=
  ⟨rfl, rfl, rfl, rfl⟩
